import Mathlib

/-!
Verification of the puppeteer-service form-fill orchestration engine.

Shallow embedding of the JavaScript sources:
  - src/services/idempotency.js   (idempotency store, TTL expiry, key generation)
  - src/middleware/rate-limiter.js (per-client fixed-window rate limiter)
  - src/services/browser.js       (environment-dependent launch configuration)
  - src/utils/validation.js       (formatTagDate date normalization)
  - src/services/form-filler.js   (suffix-based field resolver / filler)
  - src/routes/fill-rfq.js        (idempotency phase and navigation retry of the
                                   POST handler)

Stateful JavaScript (module-level Maps, Date.now()) is embedded as explicit
state passing: each operation takes the store and the current time and returns
the updated store. Page automation is embedded as an oracle environment whose
fields give the outcome (success or an error message) of each browser
primitive, and the filler produces a trace of field-write actions.
-/

namespace PuppeteerService

/-! ## Idempotency store (src/services/idempotency.js) -/

/-- Record status: 'processing' | 'completed' | 'failed'. -/
inductive IdemStatus
  | processing
  | completed
  | failed
deriving DecidableEq, Repr

/-- One idempotency record. The cached result payload and the error text are
embedded as Option String (null in the source becomes none). -/
structure IdemRecord where
  status : IdemStatus
  createdAt : Nat
  result : Option String
  error : Option String
deriving DecidableEq, Repr

/-- The in-memory Map of idempotency.js, embedded as an association list;
lookup takes the first (most recent) binding for a key. -/
def IdemStore := List (String × IdemRecord)

/-- Map.get. -/
def lookupStore : IdemStore → String → Option IdemRecord
  | [], _ => none
  | (k, r) :: rest, key => if k = key then some r else lookupStore rest key

/-- Map.delete. -/
def eraseStore (s : IdemStore) (key : String) : IdemStore :=
  s.filter (fun e => !(e.1 = key))

/-- Map.set: replaces any existing binding for the key. -/
def setStore (s : IdemStore) (key : String) (r : IdemRecord) : IdemStore :=
  (key, r) :: eraseStore s key

/-- IDEMPOTENCY_TTL_MS = 24 * 60 * 60 * 1000. -/
def idempotencyTtlMs : Nat := 24 * 60 * 60 * 1000

/-- generateIdempotencyKey(rfqId, formUrl, isTestMode): the composite key
rfqId : mode : formUrl with mode 'test' or 'prod'. -/
def generateIdempotencyKey (rfqId formUrl : String) (isTestMode : Bool) : String :=
  rfqId ++ ":" ++ (if isTestMode then "test" else "prod") ++ ":" ++ formUrl

/-- checkIdempotency(key): returns the live record, deleting (lazy expiry) and
returning null when the record is older than the TTL. Date.now() is the
explicit now argument; the updated store is returned alongside. -/
def checkIdempotency (s : IdemStore) (key : String) (now : Nat) :
    Option IdemRecord × IdemStore :=
  match lookupStore s key with
  | none => (none, s)
  | some r =>
    if now - r.createdAt > idempotencyTtlMs then (none, eraseStore s key)
    else (some r, s)

/-- startProcessing(key): create a 'processing' record if checkIdempotency
finds none; returns false (store possibly pruned by expiry) otherwise. -/
def startProcessing (s : IdemStore) (key : String) (now : Nat) :
    Bool × IdemStore :=
  match checkIdempotency s key now with
  | (some _, s1) => (false, s1)
  | (none, s1) =>
    (true, setStore s1 key ⟨IdemStatus.processing, now, none, none⟩)

/-- markCompleted(key, result): transition an existing record to 'completed'
storing the result; no-op when the key is absent. -/
def markCompleted (s : IdemStore) (key : String) (result : String) : IdemStore :=
  match lookupStore s key with
  | none => s
  | some r =>
    setStore s key { r with status := IdemStatus.completed, result := some result }

/-- markFailed(key, error): transition an existing record to 'failed' storing
the error text; no-op when the key is absent. -/
def markFailed (s : IdemStore) (key : String) (err : String) : IdemStore :=
  match lookupStore s key with
  | none => s
  | some r =>
    setStore s key { r with status := IdemStatus.failed, error := some err }

/-- removeKey(key): unconditional delete. -/
def removeKey (s : IdemStore) (key : String) : IdemStore :=
  eraseStore s key

/-! Basic store lemmas. -/

theorem lookupStore_erase (s : IdemStore) (key k : String) :
    lookupStore (eraseStore s key) k =
      if k = key then none else lookupStore s k := by
  induction s with
  | nil => simp [lookupStore, eraseStore]
  | cons e rest ih =>
    obtain ⟨k', r'⟩ := e
    by_cases h1 : k' = key
    · have hd : eraseStore ((k', r') :: rest) key = eraseStore rest key := by
        simp [eraseStore, List.filter, h1]
      rw [hd, ih]
      by_cases h2 : k = key
      · simp [h2]
      · have h3 : ¬ k' = k := by
          intro hc; exact h2 (hc ▸ h1)
        simp [h2, lookupStore, h3]
    · have hd : eraseStore ((k', r') :: rest) key =
          (k', r') :: eraseStore rest key := by
        simp [eraseStore, List.filter, h1]
      rw [hd]
      by_cases h3 : k' = k
      · have h2 : ¬ k = key := by
          intro hc; exact h1 (h3.symm ▸ hc)
        simp [lookupStore, h3, h2]
      · simp [lookupStore, h3, ih]

theorem lookupStore_set (s : IdemStore) (key k : String) (r : IdemRecord) :
    lookupStore (setStore s key r) k =
      if k = key then some r else lookupStore s k := by
  by_cases h : k = key
  · subst h
    simp [setStore, lookupStore]
  · have h' : ¬ key = k := fun hc => h hc.symm
    simp [setStore, lookupStore, h', lookupStore_erase, h]

/-! ## Idempotency phase of the POST handler (src/routes/fill-rfq.js 206-262)

The handler checks the existing record, short-circuits on conflicts or a
cached completed production result, removes retryable records, and then
claims the key via startProcessing. Browser launch happens strictly after
this phase, only on the proceed outcome. -/

inductive PhaseOutcome
  | conflictProcessing
  | cachedResult (result : Option String)
  | raceConflict
  | proceed
deriving DecidableEq, Repr

/-- True exactly for the outcome on which the handler goes on to call
launchBrowser. -/
def phaseLaunchesBrowser : PhaseOutcome → Bool
  | PhaseOutcome.proceed => true
  | _ => false

/-- The idempotency phase of router.post: checkIdempotency, the three
status branches, removeKey for retryable records, then startProcessing. -/
def idempotencyPhase (s : IdemStore) (key : String) (isTestMode : Bool)
    (now : Nat) : PhaseOutcome × IdemStore :=
  match checkIdempotency s key now with
  | (some r, s1) =>
    if r.status = IdemStatus.processing then (PhaseOutcome.conflictProcessing, s1)
    else if r.status = IdemStatus.completed ∧ isTestMode = false then
      (PhaseOutcome.cachedResult r.result, s1)
    else
      let s2 := if r.status = IdemStatus.failed ∨ isTestMode = true then
        removeKey s1 key else s1
      match startProcessing s2 key now with
      | (true, s3) => (PhaseOutcome.proceed, s3)
      | (false, s3) => (PhaseOutcome.raceConflict, s3)
  | (none, s1) =>
    match startProcessing s1 key now with
    | (true, s3) => (PhaseOutcome.proceed, s3)
    | (false, s3) => (PhaseOutcome.raceConflict, s3)

/-! ## Navigation retry loop (src/routes/fill-rfq.js 276-306)

The page-automation capability is a stub mapping the attempt number to
none (goto resolves) or some message (goto rejects). Failed attempts
before the third close the page, create a new one and observe a fixed
3000 ms delay. The loop result is ok with the succeeding attempt number,
or the fatal error built from the last navigation error. -/

inductive NavEvent
  | gotoOk (attempt : Nat)
  | gotoFailed (attempt : Nat) (msg : String)
  | pageRecreated
  | delayed (ms : Nat)
deriving DecidableEq, Repr

/-- lastError?.message of the source; the undefined rendering is unreachable
because the loop records an error before exhausting attempts. -/
def lastErrMsg : Option String → String
  | none => "undefined"
  | some m => m

/-- The for-loop over attempts, with the remaining attempt budget as fuel:
navLoop stub remaining attempt lastErr. -/
def navLoop (stub : Nat → Option String) :
    Nat → Nat → Option String → List NavEvent × Except String Nat
  | 0, _, lastErr =>
    ([], Except.error ("Failed to navigate after 3 attempts: " ++ lastErrMsg lastErr))
  | n + 1, attempt, _ =>
    match stub attempt with
    | none => ([NavEvent.gotoOk attempt], Except.ok attempt)
    | some msg =>
      let tail := if n = 0 then [] else [NavEvent.pageRecreated, NavEvent.delayed 3000]
      let rest := navLoop stub n (attempt + 1) (some msg)
      (NavEvent.gotoFailed attempt msg :: (tail ++ rest.1), rest.2)

/-- for (let attempt = 1; attempt <= 3; attempt++) around page.goto. -/
def navigationRetry (stub : Nat → Option String) : List NavEvent × Except String Nat :=
  navLoop stub 3 1 none

/-- Number of navigation attempts recorded in a trace. -/
def navAttemptsUsed (evs : List NavEvent) : Nat :=
  evs.countP (fun e => match e with
    | NavEvent.gotoOk _ => true
    | NavEvent.gotoFailed _ _ => true
    | _ => false)

/-- Number of page recreations recorded in a trace. -/
def navRecreations (evs : List NavEvent) : Nat :=
  evs.countP (fun e => match e with
    | NavEvent.pageRecreated => true
    | _ => false)

/-! ## Rate limiter (src/middleware/rate-limiter.js) -/

structure RateRecord where
  count : Nat
  resetTime : Nat
deriving DecidableEq, Repr

def RateStore := List (String × RateRecord)

def lookupRate : RateStore → String → Option RateRecord
  | [], _ => none
  | (k, r) :: rest, key => if k = key then some r else lookupRate rest key

def eraseRate (s : RateStore) (key : String) : RateStore :=
  s.filter (fun e => !(e.1 = key))

def setRate (s : RateStore) (key : String) (r : RateRecord) : RateStore :=
  (key, r) :: eraseRate s key

inductive RateOutcome
  | allowed
  | rejected (retryAfter : Nat)
deriving DecidableEq, Repr

/-- One pass through the middleware body: first request creates a window of
count 1; an elapsed window resets to count 1 and a new deadline; a full
window rejects with Math.ceil((resetTime - now) / 1000); otherwise the
counter increments. -/
def rateLimitCheck (s : RateStore) (key : String) (now windowMs maxRequests : Nat) :
    RateOutcome × RateStore :=
  match lookupRate s key with
  | none => (RateOutcome.allowed, setRate s key ⟨1, now + windowMs⟩)
  | some r =>
    if now > r.resetTime then
      (RateOutcome.allowed, setRate s key ⟨1, now + windowMs⟩)
    else if r.count ≥ maxRequests then
      (RateOutcome.rejected ((r.resetTime - now + 999) / 1000), s)
    else
      (RateOutcome.allowed, setRate s key ⟨r.count + 1, r.resetTime⟩)

/-- n consecutive requests from one client at one instant; true when every
one of them was admitted. -/
def admitRepeat (key : String) (now windowMs maxRequests : Nat) :
    Nat → RateStore → Bool × RateStore
  | 0, s => (true, s)
  | n + 1, s =>
    let first := rateLimitCheck s key now windowMs maxRequests
    let rest := admitRepeat key now windowMs maxRequests n first.2
    ((decide (first.1 = RateOutcome.allowed) && rest.1), rest.2)

/-! ## Browser launch configuration (src/services/browser.js) -/

structure LaunchOptions where
  headlessNew : Bool
  args : List String
  protocolTimeout : Nat
deriving DecidableEq, Repr

/-- The args list always present in launchOptions. -/
def baseLaunchArgs : List String :=
  ["--no-sandbox",
   "--disable-setuid-sandbox",
   "--disable-dev-shm-usage",
   "--disable-gpu",
   "--disable-extensions",
   "--disable-background-networking",
   "--disable-default-apps",
   "--disable-sync",
   "--no-first-run",
   "--window-size=1920,1080"]

/-- The certificate-ignoring and web-security-relaxing flags pushed when
IS_PRODUCTION is false. -/
def securityRelaxArgs : List String :=
  ["--ignore-certificate-errors",
   "--ignore-certificate-errors-spki-list",
   "--disable-web-security",
   "--disable-features=IsolateOrigins,site-per-process"]

/-- launchBrowser's launchOptions as a function of process.env.NODE_ENV:
IS_PRODUCTION is NODE_ENV === 'production', HEADLESS is IS_PRODUCTION, and
the relaxing flags are appended exactly when IS_PRODUCTION is false. -/
def launchOptions (nodeEnv : String) : LaunchOptions :=
  { headlessNew := nodeEnv = "production"
    args := baseLaunchArgs ++
      (if nodeEnv = "production" then [] else securityRelaxArgs)
    protocolTimeout := 120000 }

/-! ## Date normalization (src/utils/validation.js formatTagDate) -/

/-- ASCII whitespace stripped by String.prototype.trim. -/
def isJsSpace (c : Char) : Bool :=
  c == ' ' || c == '\t' || c == '\n' || c == '\r'

/-- String.prototype.trim on the ASCII range. -/
def jsTrim (s : String) : String :=
  ⟨((s.data.dropWhile isJsSpace).reverse.dropWhile isJsSpace).reverse⟩

/-- String.prototype.toUpperCase on the ASCII range. -/
def jsToUpper (s : String) : String :=
  ⟨s.data.map Char.toUpper⟩

/-- String.prototype.toLowerCase on the ASCII range. -/
def jsToLower (s : String) : String :=
  ⟨s.data.map Char.toLower⟩

/-- The test of /^[A-Z]\x7b3\x7d-\d\x7b2\x7d-\d\x7b4\x7d$/ on a character
list: three uppercase letters, dash, two digits, dash, four digits. -/
def tagPatternChars : List Char → Bool
  | [a, b, c, d, e, f, g, h, i, j, k] =>
    a.isUpper && b.isUpper && c.isUpper && (d == '-') &&
    e.isDigit && f.isDigit && (g == '-') &&
    h.isDigit && i.isDigit && j.isDigit && k.isDigit
  | _ => false

def matchesTagPattern (s : String) : Bool :=
  tagPatternChars s.data

def digitVal (c : Char) : Nat := c.toNat - 48

/-- Gregorian month lengths used by the Date builtin when validating an ISO
calendar date. -/
def daysInMonth (y m : Nat) : Nat :=
  if m = 2 then
    (if (y % 4 = 0 ∧ y % 100 ≠ 0) ∨ y % 400 = 0 then 29 else 28)
  else if m = 4 ∨ m = 6 ∨ m = 9 ∨ m = 11 then 30
  else 31

/-- new Date(string) restricted to the ECMAScript date-time string format's
calendar-date production YYYY-MM-DD (parsed as UTC, so getUTCFullYear,
getUTCMonth and getUTCDate recover the literal components); every other
input is modelled as an invalid date. -/
def isoDateChars : List Char → Option (Nat × Nat × Nat)
  | [y1, y2, y3, y4, s1, m1, m2, s2, d1, d2] =>
    if y1.isDigit && y2.isDigit && y3.isDigit && y4.isDigit &&
       (s1 == '-') && m1.isDigit && m2.isDigit &&
       (s2 == '-') && d1.isDigit && d2.isDigit then
      let y := ((digitVal y1 * 10 + digitVal y2) * 10 + digitVal y3) * 10 + digitVal y4
      let m := digitVal m1 * 10 + digitVal m2
      let d := digitVal d1 * 10 + digitVal d2
      if 1 ≤ m ∧ m ≤ 12 ∧ 1 ≤ d ∧ d ≤ daysInMonth y m then some (y, m, d)
      else none
    else none
  | _ => none

def jsDateParse (t : String) : Option (Nat × Nat × Nat) :=
  isoDateChars t.data

/-- MONTHS[parsedDate.getUTCMonth()]. -/
def monthAbbr (m : Nat) : String :=
  ["JAN", "FEB", "MAR", "APR", "MAY", "JUN",
   "JUL", "AUG", "SEP", "OCT", "NOV", "DEC"].getD (m - 1) ""

/-- String(day).padStart(2, '0'). -/
def pad2 (d : Nat) : String :=
  if d < 10 then "0" ++ toString d else toString d

/-- formatTagDate(value): undefined and null map to none; blank input maps
to none; input already in MMM-DD-YYYY shape is uppercased and returned;
otherwise the input is parsed as a date and, when the parse fails, the
uppercased input is passed through verbatim. -/
def formatTagDate (value : Option String) : Option String :=
  match value with
  | none => none
  | some v =>
    let trimmed := jsTrim v
    if trimmed = "" then none
    else
      let upper := jsToUpper trimmed
      if matchesTagPattern upper then some upper
      else
        match jsDateParse trimmed with
        | none => some upper
        | some (y, m, d) =>
          some (monthAbbr m ++ "-" ++ pad2 d ++ "-" ++ toString y)

/-! ## Field resolver / filler (src/services/form-filler.js)

The page-automation capability is an oracle environment: for each suffix
and repeater row index it answers whether waitForFunction and the writing
evaluate resolve (none) or reject with a message (some). The helpers
produce a trace of field actions; a try/catch turns any rejection of the
inner body into a logged skip. -/

structure PageEnv where
  /-- waitForFunction for (suffix, index); suffix-only waits use index 0. -/
  waitErr : String → Nat → Option String
  /-- the writing or clicking page.evaluate for (suffix, index). -/
  evalErr : String → Nat → Option String
  /-- the id-resolving page.evaluate: the matched element's id, or null. -/
  elemId : String → Nat → Option String
  /-- page.select / the single-field writing evaluate on a resolved id. -/
  selectErr : String → Option String
  /-- Boolean(document.getElementById(suffix)) for the exact-id fast path. -/
  hasExactId : String → Bool

inductive Action
  | wroteRepeater (suffix : String) (index : Nat) (value : String) (removedReadonly : Bool)
  | selectedDropdown (suffix : String) (index : Nat) (value : String)
  | clicked (suffix : String) (index : Nat)
  | skippedField (suffix : String) (index : Nat)
  | wroteTextarea (suffix : String) (value : String)
  | wroteInput (suffix : String) (value : String)
  | skippedSingle (suffix : String)
deriving DecidableEq, Repr

def actionSuffix : Action → String
  | Action.wroteRepeater s _ _ _ => s
  | Action.selectedDropdown s _ _ => s
  | Action.clicked s _ => s
  | Action.skippedField s _ => s
  | Action.wroteTextarea s _ => s
  | Action.wroteInput s _ => s
  | Action.skippedSingle s => s

/-- The repeater row index an action addresses, none for the two
single-occurrence fields. -/
def actionIndex : Action → Option Nat
  | Action.wroteRepeater _ i _ _ => some i
  | Action.selectedDropdown _ i _ => some i
  | Action.clicked _ i => some i
  | Action.skippedField _ i => some i
  | _ => none

/-- await of a page primitive: some message rejects, none resolves. -/
def awaitPrim (r : Option String) : Except String Unit :=
  match r with
  | some e => Except.error e
  | none => Except.ok ()

/-- try body catch: a rejection is replaced by the fallback (logged) trace. -/
def tryCatchActions (body : Except String (List Action)) (fallback : List Action) :
    Except String (List Action) :=
  match body with
  | Except.ok as => Except.ok as
  | Except.error _ => Except.ok fallback

/-- Truthiness of an optional string value. -/
def jsTruthy (v : Option String) : Bool :=
  match v with
  | none => false
  | some s => !(s = "")

/-- fillRepeaterFieldBySuffix(page, suffix, index, value, options): returns
early on undefined, null or empty string; otherwise waits for the indexed
suffix match and writes it, any rejection being caught as a skip. -/
def fillRepeaterFieldBySuffix (env : PageEnv) (suffix : String) (index : Nat)
    (value : Option String) (removeReadonly : Bool) : Except String (List Action) :=
  match value with
  | none => Except.ok []
  | some v =>
    if v = "" then Except.ok []
    else
      tryCatchActions
        (do
          (awaitPrim (env.waitErr suffix index)).bind fun _ =>
          (awaitPrim (env.evalErr suffix index)).bind fun _ =>
          Except.ok [Action.wroteRepeater suffix index v removeReadonly])
        [Action.skippedField suffix index]

/-- selectDropdownBySuffix(page, suffix, index, value): returns early on a
falsy value; waits, resolves the actual id, and selects by value when an
element was found; rejections are caught as a skip. -/
def selectDropdownBySuffix (env : PageEnv) (suffix : String) (index : Nat)
    (value : Option String) : Except String (List Action) :=
  match value with
  | none => Except.ok []
  | some v =>
    if v = "" then Except.ok []
    else
      tryCatchActions
        ((awaitPrim (env.waitErr suffix index)).bind fun _ =>
          match env.elemId suffix index with
          | none => Except.ok []
          | some elemid =>
            (awaitPrim (env.selectErr elemid)).bind fun _ =>
            Except.ok [Action.selectedDropdown suffix index v])
        [Action.skippedField suffix index]

/-- clickElementBySuffix(page, suffix, index): waits and clicks the indexed
suffix match; rejections are caught as a skip. -/
def clickElementBySuffix (env : PageEnv) (suffix : String) (index : Nat) :
    Except String (List Action) :=
  tryCatchActions
    ((awaitPrim (env.waitErr suffix index)).bind fun _ =>
      (awaitPrim (env.evalErr suffix index)).bind fun _ =>
      Except.ok [Action.clicked suffix index])
    [Action.skippedField suffix index]

/-- fillTextareaBySuffix(page, suffix, value): falsy value returns early;
waits for a suffix match, resolves the first matching id and writes it. -/
def fillTextareaBySuffix (env : PageEnv) (suffix : String) (value : Option String) :
    Except String (List Action) :=
  match value with
  | none => Except.ok []
  | some v =>
    if v = "" then Except.ok []
    else
      tryCatchActions
        ((awaitPrim (env.waitErr suffix 0)).bind fun _ =>
          match env.elemId suffix 0 with
          | none => Except.ok []
          | some elemid =>
            (awaitPrim (env.selectErr elemid)).bind fun _ =>
            Except.ok [Action.wroteTextarea suffix v])
        [Action.skippedSingle suffix]

/-- fillInputBySuffix(page, suffix, value): two-stage resolution, exact id
first, then suffix search; rejections are caught as a skip. -/
def fillInputBySuffix (env : PageEnv) (suffix : String) (value : Option String) :
    Except String (List Action) :=
  match value with
  | none => Except.ok []
  | some v =>
    if v = "" then Except.ok []
    else
      tryCatchActions
        (if env.hasExactId suffix then
          (awaitPrim (env.selectErr suffix)).bind fun _ =>
          Except.ok [Action.wroteInput suffix v]
        else
          (awaitPrim (env.waitErr suffix 0)).bind fun _ =>
          match env.elemId suffix 0 with
          | none => Except.ok []
          | some elemid =>
            (awaitPrim (env.selectErr elemid)).bind fun _ =>
            Except.ok [Action.wroteInput suffix v])
        [Action.skippedSingle suffix]

/-- One line item of quote_details.items. -/
structure QuoteItem where
  part_no : Option String := none
  qty_available : Option String := none
  traceability : Option String := none
  uom : Option String := none
  price_usd : Option String := none
  price_type : Option String := none
  lead_time : Option String := none
  tag_date : Option String := none
  min_qty : Option String := none
  comments : Option String := none
  no_quote : Bool := false
  conditionCode : Option String := none
deriving DecidableEq, Repr

structure QuoteDetails where
  items : List QuoteItem := []
  supplier_comments : Option String := none
  quote_prepared_by : Option String := none
deriving DecidableEq, Repr

/-- The price-type conditional of the item loop: if (item.price_type),
lowercase it and click the outright or exchange radio at the item's row. -/
def priceTypeActions (env : PageEnv) (i : Nat) (pt : Option String) :
    Except String (List Action) :=
  if jsTruthy pt then
    let lower := jsToLower (pt.getD "")
    if lower = "outright" then clickElementBySuffix env "rbOutrightNE1" i
    else if lower = "exchange" then clickElementBySuffix env "rbExchangeNE1" i
    else Except.ok []
  else Except.ok []

/-- The comments conditional of the item loop: if (item.comments), fill the
comments repeater field at the item's row. -/
def commentsActions (env : PageEnv) (i : Nat) (c : Option String) :
    Except String (List Action) :=
  if jsTruthy c then fillRepeaterFieldBySuffix env "txtNEComments1" i c false
  else Except.ok []

/-- The body of one loop iteration of fillRfqForm for the item at position
i of the items array (the source's loop variable i is the row index used
for every one of the item's writes). -/
def itemActions (env : PageEnv) (i : Nat) (item : QuoteItem) :
    Except String (List Action) :=
  (fillRepeaterFieldBySuffix env "txtNEQty1" i item.qty_available false).bind fun a1 =>
  (selectDropdownBySuffix env "ddlNETraceability1" i item.traceability).bind fun a2 =>
  (fillRepeaterFieldBySuffix env "txtNEUnitMeasure1" i item.uom false).bind fun a3 =>
  (fillRepeaterFieldBySuffix env "txtNEPrice1" i item.price_usd false).bind fun a4 =>
  (priceTypeActions env i item.price_type).bind fun a5 =>
  (fillRepeaterFieldBySuffix env "txtNELead1" i item.lead_time false).bind fun a6 =>
  (fillRepeaterFieldBySuffix env "txtNEDate1" i (formatTagDate item.tag_date) true).bind fun a7 =>
  (fillRepeaterFieldBySuffix env "txtNEMinQuantity1" i item.min_qty false).bind fun a8 =>
  (commentsActions env i item.comments).bind fun a9 =>
  Except.ok (a1 ++ a2 ++ a3 ++ a4 ++ a5 ++ a6 ++ a7 ++ a8 ++ a9)

/-- The item loop: i counts every item, and an item flagged no_quote is
skipped with continue (its index is still consumed). -/
def fillItemsGo (env : PageEnv) : Nat → List QuoteItem → Except String (List Action)
  | _, [] => Except.ok []
  | i, item :: rest =>
    if item.no_quote then fillItemsGo env (i + 1) rest
    else
      (itemActions env i item).bind fun as =>
      (fillItemsGo env (i + 1) rest).bind fun bs =>
      Except.ok (as ++ bs)

/-- The supplier_comments conditional after the item loop. -/
def supplierCommentsActions (env : PageEnv) (v : Option String) :
    Except String (List Action) :=
  if jsTruthy v then fillTextareaBySuffix env "txtComments" v
  else Except.ok []

/-- The quote_prepared_by conditional after the item loop. -/
def preparedByActions (env : PageEnv) (v : Option String) :
    Except String (List Action) :=
  if jsTruthy v then fillInputBySuffix env "quotePreparedBy" v
  else Except.ok []

/-- fillRfqForm(page, quoteDetails): the item loop followed by the two
single-occurrence fields (aggregate comments, preparer name). -/
def fillRfqForm (env : PageEnv) (q : QuoteDetails) : Except String (List Action) :=
  (fillItemsGo env 0 q.items).bind fun itemsA =>
  (supplierCommentsActions env q.supplier_comments).bind fun sA =>
  (preparedByActions env q.quote_prepared_by).bind fun pA =>
  Except.ok (itemsA ++ sA ++ pA)

/-- A page environment in which every browser primitive resolves and every
element is found under its own suffix as id. -/
def allOkPageEnv : PageEnv :=
  { waitErr := fun _ _ => none
    evalErr := fun _ _ => none
    elemId := fun suffix _ => some suffix
    selectErr := fun _ => none
    hasExactId := fun _ => false }

/-- The ten repeater suffixes targeted by the item loop of fillRfqForm. -/
def repeaterSuffixes : List String :=
  ["txtNEQty1", "ddlNETraceability1", "txtNEUnitMeasure1", "txtNEPrice1",
   "rbOutrightNE1", "rbExchangeNE1", "txtNELead1", "txtNEDate1",
   "txtNEMinQuantity1", "txtNEComments1"]

/-- The suffixes of the two single-occurrence fields written after the item
loop. -/
def singleSuffixes : List String :=
  ["txtComments", "quotePreparedBy"]

/-! ## Idempotency store call sequences (for the record-shape invariant) -/

/-- One call against the idempotency service. -/
inductive IdemOp
  | startOp (key : String) (now : Nat)
  | completeOp (key : String) (result : String)
  | failOp (key : String) (err : String)
  | removeOp (key : String)
deriving DecidableEq, Repr

def applyOp (s : IdemStore) : IdemOp → IdemStore
  | IdemOp.startOp k now => (startProcessing s k now).2
  | IdemOp.completeOp k r => markCompleted s k r
  | IdemOp.failOp k e => markFailed s k e
  | IdemOp.removeOp k => removeKey s k

def applyOps (s : IdemStore) (ops : List IdemOp) : IdemStore :=
  ops.foldl applyOp s

/-- The record-shape invariant of the spec data model: a cached result is
present only on a completed record, an error text only on a failed one. -/
def storeResultErrorInv (s : IdemStore) : Prop :=
  ∀ k r, lookupStore s k = some r →
    (r.result ≠ none → r.status = IdemStatus.completed) ∧
    (r.error ≠ none → r.status = IdemStatus.failed)

/-- A terminal mark is guarded when the key's record, if any, is still in
processing state (the orchestration discipline: one terminal transition per
record lifetime). -/
def markGuardOk (s : IdemStore) : IdemOp → Bool
  | IdemOp.completeOp k _ =>
    (match lookupStore s k with
     | some r => r.status == IdemStatus.processing
     | none => true)
  | IdemOp.failOp k _ =>
    (match lookupStore s k with
     | some r => r.status == IdemStatus.processing
     | none => true)
  | _ => true

/-- Every terminal mark along the run is guarded. -/
def okOps : IdemStore → List IdemOp → Bool
  | _, [] => true
  | s, op :: rest => markGuardOk s op && okOps (applyOp s op) rest

/-! Rate store lemmas, mirroring the idempotency store ones. -/

theorem lookupRate_erase (s : RateStore) (key k : String) :
    lookupRate (eraseRate s key) k =
      if k = key then none else lookupRate s k := by
  induction s with
  | nil => simp [lookupRate, eraseRate]
  | cons e rest ih =>
    obtain ⟨k', r'⟩ := e
    by_cases h1 : k' = key
    · have hd : eraseRate ((k', r') :: rest) key = eraseRate rest key := by
        simp [eraseRate, List.filter, h1]
      rw [hd, ih]
      by_cases h2 : k = key
      · simp [h2]
      · have h3 : ¬ k' = k := by
          intro hc; exact h2 (hc ▸ h1)
        simp [h2, lookupRate, h3]
    · have hd : eraseRate ((k', r') :: rest) key =
          (k', r') :: eraseRate rest key := by
        simp [eraseRate, List.filter, h1]
      rw [hd]
      by_cases h3 : k' = k
      · have h2 : ¬ k = key := by
          intro hc; exact h1 (h3.symm ▸ hc)
        simp [lookupRate, h3, h2]
      · simp [lookupRate, h3, ih]

theorem lookupRate_set (s : RateStore) (key k : String) (r : RateRecord) :
    lookupRate (setRate s key r) k =
      if k = key then some r else lookupRate s k := by
  by_cases h : k = key
  · subst h
    simp [setRate, lookupRate]
  · have h' : ¬ key = k := fun hc => h hc.symm
    simp [setRate, lookupRate, h', lookupRate_erase, h]

/-! # Claim theorems -/

/-- Claim C10: generateIdempotencyKey is not injective in (rfqId, formUrl)
for a fixed mode: the unescaped colon delimiter makes rfqId "a" with URL
"prod:u" and rfqId "a:prod" with URL "u" collide on the commit-mode key
"a:prod:prod:u", so two different logical submissions share one
idempotency record. -/
theorem claim_C10 :
    generateIdempotencyKey "a" "prod:u" false =
      generateIdempotencyKey "a:prod" "u" false
    ∧ (("a", "prod:u") : String × String) ≠ ("a:prod", "u") := by
  constructor
  · rfl
  · decide

/-- Claim C3, counterexample: the claim says the certificate-ignoring and
web-security-relaxing flags are present only when the environment is
explicitly development, but for NODE_ENV "test" (not development) the
launch configuration still contains them, because the source gates them on
NODE_ENV not being "production". -/
theorem claim_C3_counterexample :
    ("test" : String) ≠ "development"
    ∧ "--disable-web-security" ∈ (launchOptions "test").args
    ∧ "--ignore-certificate-errors" ∈ (launchOptions "test").args := by
  refine ⟨by decide, ?_, ?_⟩ <;> decide

/-- Claim C3, amended: the certificate-ignoring and web-security-relaxing
flags are present in the launch configuration exactly when the environment
is not explicitly production; for the production environment none of them
is present. -/
theorem claim_C3_amended (nodeEnv : String) :
    (securityRelaxArgs.all (fun f => (launchOptions nodeEnv).args.contains f) =
      !(nodeEnv == "production"))
    ∧ (securityRelaxArgs.any (fun f => (launchOptions nodeEnv).args.contains f) =
      !(nodeEnv == "production")) := by
  by_cases h : nodeEnv = "production"
  · subst h
    constructor <;> decide
  · have hb : (nodeEnv == "production") = false := by
      simp [h]
    rw [hb]
    simp only [launchOptions, if_neg h]
    constructor <;> decide

/-- Claim C5: a record older than the fixed TTL is treated as absent by
checkIdempotency regardless of its status and is deleted by the check call
that observes it; a record not older than the TTL is returned unchanged. -/
theorem claim_C5 (s : IdemStore) (key : String) (now : Nat) (r : IdemRecord)
    (hlook : lookupStore s key = some r) :
    (now - r.createdAt > idempotencyTtlMs →
      checkIdempotency s key now = (none, eraseStore s key))
    ∧ (now - r.createdAt ≤ idempotencyTtlMs →
      checkIdempotency s key now = (some r, s)) := by
  constructor
  · intro h
    simp [checkIdempotency, hlook, h]
  · intro h
    simp [checkIdempotency, hlook, Nat.not_lt.mpr h]

/-- Claim C5 witness: a processing record created at time 0 observed one
millisecond past the 24-hour TTL is absent and deleted; at exactly the TTL
it is returned unchanged. -/
theorem claim_C5_witness :
    checkIdempotency [("k", ⟨IdemStatus.processing, 0, none, none⟩)] "k"
        (idempotencyTtlMs + 1) =
      (none, eraseStore [("k", ⟨IdemStatus.processing, 0, none, none⟩)] "k")
    ∧ checkIdempotency [("k", ⟨IdemStatus.processing, 0, none, none⟩)] "k"
        idempotencyTtlMs =
      (some ⟨IdemStatus.processing, 0, none, none⟩,
       [("k", ⟨IdemStatus.processing, 0, none, none⟩)]) :=
  ⟨(claim_C5 [("k", ⟨IdemStatus.processing, 0, none, none⟩)] "k"
      (idempotencyTtlMs + 1) ⟨IdemStatus.processing, 0, none, none⟩
      (by decide)).1 (by decide),
   (claim_C5 [("k", ⟨IdemStatus.processing, 0, none, none⟩)] "k"
      idempotencyTtlMs ⟨IdemStatus.processing, 0, none, none⟩
      (by decide)).2 (by decide)⟩

/-- A character list accepted by the ISO calendar-date parse has ten
characters, so it can never match the eleven-character MMM-DD-YYYY
pattern, and it is not empty. -/
theorem isoDateChars_shape {l : List Char} {r : Nat × Nat × Nat}
    (h : isoDateChars l = some r) :
    tagPatternChars (l.map Char.toUpper) = false ∧ l ≠ [] := by
  unfold isoDateChars at h
  split at h
  · exact ⟨rfl, by simp⟩
  · exact absurd h (by simp)

/-- Claim C8: formatTagDate maps 2024-01-05 to JAN-05-2024, maps
jan-01-2024 to JAN-01-2024, and maps unparseable abc123 to its uppercased
verbatim form ABC123 rather than rejecting it; in general every input
whose trimmed form parses as a calendar date is rendered as uppercase
month abbreviation, day and year. -/
theorem claim_C8 :
    formatTagDate (some "2024-01-05") = some "JAN-05-2024"
    ∧ formatTagDate (some "jan-01-2024") = some "JAN-01-2024"
    ∧ formatTagDate (some "abc123") = some "ABC123"
    ∧ ∀ s y m d, jsDateParse (jsTrim s) = some (y, m, d) →
        formatTagDate (some s) =
          some (monthAbbr m ++ "-" ++ pad2 d ++ "-" ++ toString y) := by
  refine ⟨by decide, by decide, by decide, ?_⟩
  intro s y m d hp
  have hshape := isoDateChars_shape (l := (jsTrim s).data) (r := (y, m, d)) hp
  have hne : ¬ jsTrim s = "" := by
    intro he
    apply hshape.2
    rw [he]
  have hpat : matchesTagPattern (jsToUpper (jsTrim s)) = false := hshape.1
  simp only [formatTagDate, hne, hpat, if_neg, ite_false, Bool.false_eq_true]
  rw [hp]

/-- Claim C8 witness: the general rendering clause applied at the concrete
parseable input 2025-12-31. -/
theorem claim_C8_witness :
    formatTagDate (some "2025-12-31") =
      some (monthAbbr 12 ++ "-" ++ pad2 31 ++ "-" ++ toString 2025) :=
  claim_C8.2.2.2 "2025-12-31" 2025 12 31 (by decide)

/-- After removeKey, startProcessing always claims the key with a fresh
processing record. -/
theorem startProcessing_after_remove (s : IdemStore) (key : String) (now : Nat) :
    startProcessing (eraseStore s key) key now =
      (true, setStore (eraseStore s key) key
        ⟨IdemStatus.processing, now, none, none⟩) := by
  have hl : lookupStore (eraseStore s key) key = none := by
    simp [lookupStore_erase]
  simp [startProcessing, checkIdempotency, hl]

/-- Claim C2: for a request whose idempotency key has an existing live
record, a processing record is rejected as a conflict; a completed record
in commit mode (isTestMode false) returns its cached result without
launching a browser; a completed record in non-commit mode, or a failed
record in any mode, is removed and the job proceeds with a freshly claimed
processing record. -/
theorem claim_C2 (s : IdemStore) (key : String) (isTestMode : Bool) (now : Nat)
    (r : IdemRecord) (hlook : lookupStore s key = some r)
    (hlive : now - r.createdAt ≤ idempotencyTtlMs) :
    (r.status = IdemStatus.processing →
      idempotencyPhase s key isTestMode now = (PhaseOutcome.conflictProcessing, s))
    ∧ (r.status = IdemStatus.completed → isTestMode = false →
      idempotencyPhase s key isTestMode now = (PhaseOutcome.cachedResult r.result, s)
      ∧ phaseLaunchesBrowser (idempotencyPhase s key isTestMode now).1 = false)
    ∧ (r.status = IdemStatus.completed → isTestMode = true →
      idempotencyPhase s key isTestMode now =
        (PhaseOutcome.proceed,
         setStore (removeKey s key) key ⟨IdemStatus.processing, now, none, none⟩))
    ∧ (r.status = IdemStatus.failed →
      idempotencyPhase s key isTestMode now =
        (PhaseOutcome.proceed,
         setStore (removeKey s key) key ⟨IdemStatus.processing, now, none, none⟩)) := by
  have hchk : checkIdempotency s key now = (some r, s) := by
    simp [checkIdempotency, hlook, Nat.not_lt.mpr hlive]
  refine ⟨?_, ?_, ?_, ?_⟩
  · intro hst
    simp [idempotencyPhase, hchk, hst]
  · intro hst hmode
    subst hmode
    constructor
    · simp [idempotencyPhase, hchk, hst]
    · simp [idempotencyPhase, hchk, hst, phaseLaunchesBrowser]
  · intro hst hmode
    subst hmode
    simp [idempotencyPhase, hchk, hst, startProcessing_after_remove, removeKey]
  · intro hst
    rcases Bool.eq_false_or_eq_true isTestMode with hm | hm <;> subst hm <;>
      simp [idempotencyPhase, hchk, hst, startProcessing_after_remove, removeKey]

/-- Claim C2 witness: a live processing record for key k makes the handler
report a conflict, and a live completed record in commit mode makes it
return the cached result without launching a browser. -/
theorem claim_C2_witness :
    idempotencyPhase [("k", ⟨IdemStatus.processing, 0, none, none⟩)] "k" false 5 =
      (PhaseOutcome.conflictProcessing,
       [("k", ⟨IdemStatus.processing, 0, none, none⟩)])
    ∧ idempotencyPhase [("k", ⟨IdemStatus.completed, 0, some "cached", none⟩)]
        "k" false 5 =
      (PhaseOutcome.cachedResult (some "cached"),
       [("k", ⟨IdemStatus.completed, 0, some "cached", none⟩)]) :=
  ⟨(claim_C2 [("k", ⟨IdemStatus.processing, 0, none, none⟩)] "k" false 5
      ⟨IdemStatus.processing, 0, none, none⟩ (by decide) (by decide)).1 rfl,
   ((claim_C2 [("k", ⟨IdemStatus.completed, 0, some "cached", none⟩)] "k" false 5
      ⟨IdemStatus.completed, 0, some "cached", none⟩ (by decide) (by decide)).2.1
      rfl rfl).1⟩

/-- Claim C6: with a navigation capability failing exactly twice then
succeeding, the loop reaches the fill stage (ok result) after exactly 3
navigation attempts and exactly 2 page recreations, each recreation
followed by the fixed 3000 ms delay; with one that always fails, the job
fails with the message naming 3 attempts and carrying the last underlying
navigation error's message. -/
theorem claim_C6 (stub : Nat → Option String) (m1 m2 m3 : String) :
    (stub 1 = some m1 → stub 2 = some m2 → stub 3 = none →
      navigationRetry stub =
        ([NavEvent.gotoFailed 1 m1, NavEvent.pageRecreated, NavEvent.delayed 3000,
          NavEvent.gotoFailed 2 m2, NavEvent.pageRecreated, NavEvent.delayed 3000,
          NavEvent.gotoOk 3], Except.ok 3)
      ∧ navAttemptsUsed (navigationRetry stub).1 = 3
      ∧ navRecreations (navigationRetry stub).1 = 2)
    ∧ (stub 1 = some m1 → stub 2 = some m2 → stub 3 = some m3 →
      navigationRetry stub =
        ([NavEvent.gotoFailed 1 m1, NavEvent.pageRecreated, NavEvent.delayed 3000,
          NavEvent.gotoFailed 2 m2, NavEvent.pageRecreated, NavEvent.delayed 3000,
          NavEvent.gotoFailed 3 m3],
         Except.error ("Failed to navigate after 3 attempts: " ++ m3))
      ∧ navAttemptsUsed (navigationRetry stub).1 = 3
      ∧ navRecreations (navigationRetry stub).1 = 2) := by
  constructor
  · intro h1 h2 h3
    have ht : navigationRetry stub =
        ([NavEvent.gotoFailed 1 m1, NavEvent.pageRecreated, NavEvent.delayed 3000,
          NavEvent.gotoFailed 2 m2, NavEvent.pageRecreated, NavEvent.delayed 3000,
          NavEvent.gotoOk 3], Except.ok 3) := by
      simp [navigationRetry, navLoop, h1, h2, h3]
    refine ⟨ht, ?_, ?_⟩ <;> rw [ht] <;> rfl
  · intro h1 h2 h3
    have ht : navigationRetry stub =
        ([NavEvent.gotoFailed 1 m1, NavEvent.pageRecreated, NavEvent.delayed 3000,
          NavEvent.gotoFailed 2 m2, NavEvent.pageRecreated, NavEvent.delayed 3000,
          NavEvent.gotoFailed 3 m3],
         Except.error ("Failed to navigate after 3 attempts: " ++ m3)) := by
      simp [navigationRetry, navLoop, h1, h2, h3, lastErrMsg]
    refine ⟨ht, ?_, ?_⟩ <;> rw [ht] <;> rfl

/-- Claim C6 witness: the two scenarios evaluated on concrete stubs, one
failing twice then succeeding and one always failing. -/
theorem claim_C6_witness :
    navigationRetry (fun n => if n = 1 then some "b1" else
        if n = 2 then some "b2" else none) =
      ([NavEvent.gotoFailed 1 "b1", NavEvent.pageRecreated, NavEvent.delayed 3000,
        NavEvent.gotoFailed 2 "b2", NavEvent.pageRecreated, NavEvent.delayed 3000,
        NavEvent.gotoOk 3], Except.ok 3)
    ∧ navigationRetry (fun _ => some "net down") =
      ([NavEvent.gotoFailed 1 "net down", NavEvent.pageRecreated, NavEvent.delayed 3000,
        NavEvent.gotoFailed 2 "net down", NavEvent.pageRecreated, NavEvent.delayed 3000,
        NavEvent.gotoFailed 3 "net down"],
       Except.error ("Failed to navigate after 3 attempts: " ++ "net down")) :=
  ⟨((claim_C6 (fun n => if n = 1 then some "b1" else
      if n = 2 then some "b2" else none) "b1" "b2" "x").1 rfl rfl rfl).1,
   ((claim_C6 (fun _ => some "net down") "net down" "net down" "net down").2
      rfl rfl rfl).1⟩

/-- Within an open window, j further requests from a client whose counter
is at c are all admitted while c + j stays at or below the maximum, and
the counter advances to c + j with the deadline unchanged. -/
theorem admitRepeat_within (key : String) (t w m : Nat) :
    ∀ (j : Nat) (S : RateStore) (c R : Nat),
      lookupRate S key = some ⟨c, R⟩ → t ≤ R → c + j ≤ m →
      (admitRepeat key t w m j S).1 = true ∧
      lookupRate (admitRepeat key t w m j S).2 key = some ⟨c + j, R⟩ := by
  intro j
  induction j with
  | zero =>
    intro S c R hl _ _
    exact ⟨rfl, by simpa using hl⟩
  | succ n ih =>
    intro S c R hl ht hcm
    have hng : ¬ t > R := Nat.not_lt.mpr ht
    have hcnt : ¬ c ≥ m := by omega
    have hch : rateLimitCheck S key t w m =
        (RateOutcome.allowed, setRate S key ⟨c + 1, R⟩) := by
      simp [rateLimitCheck, hl, hng, hcnt]
    have hl2 : lookupRate (setRate S key ⟨c + 1, R⟩) key = some ⟨c + 1, R⟩ := by
      simp [lookupRate_set]
    have hrec := ih (setRate S key ⟨c + 1, R⟩) (c + 1) R hl2 ht (by omega)
    constructor
    · simp [admitRepeat, hch, hrec.1]
    · have harith : c + 1 + n = c + (n + 1) := by omega
      simp [admitRepeat, hch]
      rw [← harith]
      exact hrec.2

/-- A client with no window record gets maxRequests consecutive admits,
ending with a full counter and the deadline windowMs past the first
request. -/
theorem admitRepeat_fresh (key : String) (t w m : Nat) (S : RateStore)
    (hfresh : lookupRate S key = none) (hm : 0 < m) :
    (admitRepeat key t w m m S).1 = true ∧
    lookupRate (admitRepeat key t w m m S).2 key = some ⟨m, t + w⟩ := by
  obtain ⟨n, rfl⟩ : ∃ n, m = n + 1 := ⟨m - 1, by omega⟩
  have hch : rateLimitCheck S key t w (n + 1) =
      (RateOutcome.allowed, setRate S key ⟨1, t + w⟩) := by
    simp [rateLimitCheck, hfresh]
  have hl2 : lookupRate (setRate S key ⟨1, t + w⟩) key = some ⟨1, t + w⟩ := by
    simp [lookupRate_set]
  have hrec := admitRepeat_within key t w (n + 1) n
      (setRate S key ⟨1, t + w⟩) 1 (t + w) hl2 (by omega) (by omega)
  constructor
  · simp [admitRepeat, hch, hrec.1]
  · have harith : 1 + n = n + 1 := by omega
    rw [harith] at hrec
    simp [admitRepeat, hch]
    exact hrec.2

/-- Claim C4: from a fresh store, one client gets exactly maxRequests
consecutive admits in one window; the next call inside the window is
rejected, leaving the store unchanged, with a positive retry-after equal
to the seconds remaining until the window resets rounded up; any call by a
different client never touches this client's record; and a call after the
deadline is admitted with the counter reset to 1 and the deadline moved to
windowMs past that call, allowing maxRequests further admits. -/
theorem claim_C4 (s0 : RateStore) (key key2 : String) (w m t0 t1 t2 : Nat)
    (hm : 0 < m) (hfresh : lookupRate s0 key = none)
    (ht1 : t1 < t0 + w) (ht2 : t0 + w < t2) (hk2 : key2 ≠ key) :
    ((admitRepeat key t0 w m m s0).1 = true)
    ∧ lookupRate (admitRepeat key t0 w m m s0).2 key = some ⟨m, t0 + w⟩
    ∧ (rateLimitCheck (admitRepeat key t0 w m m s0).2 key t1 w m).1 =
        RateOutcome.rejected ((t0 + w - t1 + 999) / 1000)
    ∧ 0 < (t0 + w - t1 + 999) / 1000
    ∧ (rateLimitCheck (admitRepeat key t0 w m m s0).2 key t1 w m).2 =
        (admitRepeat key t0 w m m s0).2
    ∧ (∀ S t, lookupRate (rateLimitCheck S key2 t w m).2 key = lookupRate S key)
    ∧ (rateLimitCheck (admitRepeat key t0 w m m s0).2 key t2 w m).1 =
        RateOutcome.allowed
    ∧ lookupRate (rateLimitCheck (admitRepeat key t0 w m m s0).2 key t2 w m).2 key =
        some ⟨1, t2 + w⟩
    ∧ (admitRepeat key t2 w m m (admitRepeat key t0 w m m s0).2).1 = true := by
  obtain ⟨hall, hcount⟩ := admitRepeat_fresh key t0 w m s0 hfresh hm
  have hng1 : ¬ t1 > t0 + w := by omega
  have hrej : rateLimitCheck (admitRepeat key t0 w m m s0).2 key t1 w m =
      (RateOutcome.rejected ((t0 + w - t1 + 999) / 1000),
       (admitRepeat key t0 w m m s0).2) := by
    simp [rateLimitCheck, hcount, hng1]
  have hreset : rateLimitCheck (admitRepeat key t0 w m m s0).2 key t2 w m =
      (RateOutcome.allowed,
       setRate (admitRepeat key t0 w m m s0).2 key ⟨1, t2 + w⟩) := by
    simp [rateLimitCheck, hcount, ht2]
  refine ⟨hall, hcount, by rw [hrej], ?_, by rw [hrej], ?_, by rw [hreset], ?_, ?_⟩
  · exact Nat.div_pos (by omega) (by decide)
  · intro S t
    have hne : ¬ key = key2 := fun hc => hk2 hc.symm
    cases hS : lookupRate S key2 with
    | none => simp [rateLimitCheck, hS, lookupRate_set, hne]
    | some r =>
      by_cases h1 : t > r.resetTime
      · simp [rateLimitCheck, hS, h1, lookupRate_set, hne]
      · by_cases h2 : r.count ≥ m
        · simp [rateLimitCheck, hS, h1, h2]
        · simp [rateLimitCheck, hS, h1, h2, lookupRate_set, hne]
  · rw [hreset]
    simp [lookupRate_set]
  · obtain ⟨n, rfl⟩ : ∃ n, m = n + 1 := ⟨m - 1, by omega⟩
    have hl2 : lookupRate (setRate (admitRepeat key t0 w (n + 1) (n + 1) s0).2 key
        ⟨1, t2 + w⟩) key = some ⟨1, t2 + w⟩ := by
      simp [lookupRate_set]
    have hrec := admitRepeat_within key t2 w (n + 1) n
        (setRate (admitRepeat key t0 w (n + 1) (n + 1) s0).2 key ⟨1, t2 + w⟩)
        1 (t2 + w) hl2 (by omega) (by omega)
    show (admitRepeat key t2 w (n + 1) (n + 1)
        (admitRepeat key t0 w (n + 1) (n + 1) s0).2).1 = true
    rw [admitRepeat, hreset]
    simp [hrec.1]

/-- Claim C4 witness: with a 60000 ms window and a maximum of 3, three
admits at time 0 succeed, the fourth at 59999 is rejected with retry-after
(0 + 60000 - 59999 + 999) / 1000, and a batch of three more at 60001 is
admitted in full. -/
theorem claim_C4_witness :
    ((admitRepeat "puppeteer:a" 0 60000 3 3 []).1 = true)
    ∧ (rateLimitCheck (admitRepeat "puppeteer:a" 0 60000 3 3 []).2 "puppeteer:a"
        59999 60000 3).1 =
      RateOutcome.rejected ((0 + 60000 - 59999 + 999) / 1000)
    ∧ (admitRepeat "puppeteer:a" 60001 60000 3 3
        (admitRepeat "puppeteer:a" 0 60000 3 3 []).2).1 = true := by
  have h := claim_C4 [] "puppeteer:a" "puppeteer:b" 60000 3 0 59999 60001
    (by decide) (by decide) (by decide) (by decide) (by decide)
  exact ⟨h.1, h.2.2.1, h.2.2.2.2.2.2.2.2⟩

@[simp]
theorem exceptBindOkLeft {α β ε : Type} (a : α) (f : α → Except ε β) :
    (Except.ok a : Except ε α).bind f = f a := rfl

@[simp]
theorem exceptBindErrLeft {α β ε : Type} (e : ε) (f : α → Except ε β) :
    (Except.error e : Except ε α).bind f = (Except.error e : Except ε β) := rfl

/-- A repeater field write yields no action (missing or empty value), one
write action, or one skip; it never propagates an error. -/
theorem fillRepeater_shape (env : PageEnv) (s : String) (i : Nat)
    (v : Option String) (ro : Bool) :
    fillRepeaterFieldBySuffix env s i v ro = Except.ok []
    ∨ (∃ str, fillRepeaterFieldBySuffix env s i v ro =
        Except.ok [Action.wroteRepeater s i str ro])
    ∨ fillRepeaterFieldBySuffix env s i v ro =
        Except.ok [Action.skippedField s i] := by
  cases v with
  | none => left; rfl
  | some str =>
    by_cases hstr : str = ""
    · left; simp [fillRepeaterFieldBySuffix, hstr]
    · cases hw : env.waitErr s i with
      | some e =>
        right; right
        simp [fillRepeaterFieldBySuffix, hstr, hw, tryCatchActions, awaitPrim]
      | none =>
        cases he : env.evalErr s i with
        | some e =>
          right; right
          simp [fillRepeaterFieldBySuffix, hstr, hw, he, tryCatchActions, awaitPrim]
        | none =>
          right; left
          exact ⟨str, by
            simp [fillRepeaterFieldBySuffix, hstr, hw, he, tryCatchActions, awaitPrim]⟩

/-- A dropdown selection yields no action, one select action, or one skip;
it never propagates an error. -/
theorem selectDropdown_shape (env : PageEnv) (s : String) (i : Nat)
    (v : Option String) :
    selectDropdownBySuffix env s i v = Except.ok []
    ∨ (∃ str, selectDropdownBySuffix env s i v =
        Except.ok [Action.selectedDropdown s i str])
    ∨ selectDropdownBySuffix env s i v = Except.ok [Action.skippedField s i] := by
  cases v with
  | none => left; rfl
  | some str =>
    by_cases hstr : str = ""
    · left; simp [selectDropdownBySuffix, hstr]
    · cases hw : env.waitErr s i with
      | some e =>
        right; right
        simp [selectDropdownBySuffix, hstr, hw, tryCatchActions, awaitPrim]
      | none =>
        cases hid : env.elemId s i with
        | none =>
          left
          simp [selectDropdownBySuffix, hstr, hw, hid, tryCatchActions, awaitPrim]
        | some elemid =>
          cases hsel : env.selectErr elemid with
          | some e =>
            right; right
            simp [selectDropdownBySuffix, hstr, hw, hid, hsel,
              tryCatchActions, awaitPrim]
          | none =>
            right; left
            exact ⟨str, by
              simp [selectDropdownBySuffix, hstr, hw, hid, hsel,
                tryCatchActions, awaitPrim]⟩

/-- A radio click yields one click action or one skip; it never propagates
an error. -/
theorem click_shape (env : PageEnv) (s : String) (i : Nat) :
    clickElementBySuffix env s i = Except.ok [Action.clicked s i]
    ∨ clickElementBySuffix env s i = Except.ok [Action.skippedField s i] := by
  cases hw : env.waitErr s i with
  | some e =>
    right; simp [clickElementBySuffix, hw, tryCatchActions, awaitPrim]
  | none =>
    cases he : env.evalErr s i with
    | some e =>
      right; simp [clickElementBySuffix, hw, he, tryCatchActions, awaitPrim]
    | none =>
      left; simp [clickElementBySuffix, hw, he, tryCatchActions, awaitPrim]

/-- A textarea write yields no action, one write, or one skip; it never
propagates an error. -/
theorem fillTextarea_shape (env : PageEnv) (s : String) (v : Option String) :
    fillTextareaBySuffix env s v = Except.ok []
    ∨ (∃ str, fillTextareaBySuffix env s v = Except.ok [Action.wroteTextarea s str])
    ∨ fillTextareaBySuffix env s v = Except.ok [Action.skippedSingle s] := by
  cases v with
  | none => left; rfl
  | some str =>
    by_cases hstr : str = ""
    · left; simp [fillTextareaBySuffix, hstr]
    · cases hw : env.waitErr s 0 with
      | some e =>
        right; right
        simp [fillTextareaBySuffix, hstr, hw, tryCatchActions, awaitPrim]
      | none =>
        cases hid : env.elemId s 0 with
        | none =>
          left
          simp [fillTextareaBySuffix, hstr, hw, hid, tryCatchActions, awaitPrim]
        | some elemid =>
          cases hsel : env.selectErr elemid with
          | some e =>
            right; right
            simp [fillTextareaBySuffix, hstr, hw, hid, hsel,
              tryCatchActions, awaitPrim]
          | none =>
            right; left
            exact ⟨str, by
              simp [fillTextareaBySuffix, hstr, hw, hid, hsel,
                tryCatchActions, awaitPrim]⟩

/-- A single input write yields no action, one write, or one skip; it never
propagates an error. -/
theorem fillInput_shape (env : PageEnv) (s : String) (v : Option String) :
    fillInputBySuffix env s v = Except.ok []
    ∨ (∃ str, fillInputBySuffix env s v = Except.ok [Action.wroteInput s str])
    ∨ fillInputBySuffix env s v = Except.ok [Action.skippedSingle s] := by
  cases v with
  | none => left; rfl
  | some str =>
    by_cases hstr : str = ""
    · left; simp [fillInputBySuffix, hstr]
    · by_cases hex : env.hasExactId s = true
      · cases hsel : env.selectErr s with
        | some e =>
          right; right
          simp [fillInputBySuffix, hstr, hex, hsel, tryCatchActions, awaitPrim]
        | none =>
          right; left
          exact ⟨str, by
            simp [fillInputBySuffix, hstr, hex, hsel, tryCatchActions, awaitPrim]⟩
      · cases hw : env.waitErr s 0 with
        | some e =>
          right; right
          simp [fillInputBySuffix, hstr, hex, hw, tryCatchActions, awaitPrim]
        | none =>
          cases hid : env.elemId s 0 with
          | none =>
            left
            simp [fillInputBySuffix, hstr, hex, hw, hid, tryCatchActions, awaitPrim]
          | some elemid =>
            cases hsel : env.selectErr elemid with
            | some e =>
              right; right
              simp [fillInputBySuffix, hstr, hex, hw, hid, hsel,
                tryCatchActions, awaitPrim]
            | none =>
              right; left
              exact ⟨str, by
                simp [fillInputBySuffix, hstr, hex, hw, hid, hsel,
                  tryCatchActions, awaitPrim]⟩

/-- Well-formedness of one action of the item loop at row i: it targets a
baseline repeater suffix and addresses exactly row i. -/
def itemActionOk (i : Nat) (a : Action) : Prop :=
  actionSuffix a ∈ repeaterSuffixes ∧ actionIndex a = some i

theorem fillRepeater_spec (env : PageEnv) (s : String) (i : Nat)
    (v : Option String) (ro : Bool) (hs : s ∈ repeaterSuffixes) :
    ∃ acts, fillRepeaterFieldBySuffix env s i v ro = Except.ok acts ∧
      ∀ a ∈ acts, itemActionOk i a := by
  rcases fillRepeater_shape env s i v ro with h | ⟨str, h⟩ | h
  · exact ⟨[], h, by simp⟩
  · exact ⟨_, h, by simp [itemActionOk, actionSuffix, actionIndex, hs]⟩
  · exact ⟨_, h, by simp [itemActionOk, actionSuffix, actionIndex, hs]⟩

theorem selectDropdown_spec (env : PageEnv) (s : String) (i : Nat)
    (v : Option String) (hs : s ∈ repeaterSuffixes) :
    ∃ acts, selectDropdownBySuffix env s i v = Except.ok acts ∧
      ∀ a ∈ acts, itemActionOk i a := by
  rcases selectDropdown_shape env s i v with h | ⟨str, h⟩ | h
  · exact ⟨[], h, by simp⟩
  · exact ⟨_, h, by simp [itemActionOk, actionSuffix, actionIndex, hs]⟩
  · exact ⟨_, h, by simp [itemActionOk, actionSuffix, actionIndex, hs]⟩

theorem click_spec (env : PageEnv) (s : String) (i : Nat)
    (hs : s ∈ repeaterSuffixes) :
    ∃ acts, clickElementBySuffix env s i = Except.ok acts ∧
      ∀ a ∈ acts, itemActionOk i a := by
  rcases click_shape env s i with h | h
  · exact ⟨_, h, by simp [itemActionOk, actionSuffix, actionIndex, hs]⟩
  · exact ⟨_, h, by simp [itemActionOk, actionSuffix, actionIndex, hs]⟩

theorem priceType_spec (env : PageEnv) (i : Nat) (pt : Option String) :
    ∃ acts, priceTypeActions env i pt = Except.ok acts ∧
      ∀ a ∈ acts, itemActionOk i a := by
  unfold priceTypeActions
  by_cases ht : jsTruthy pt = true
  · by_cases ho : jsToLower (pt.getD "") = "outright"
    · simpa [ht, ho] using click_spec env "rbOutrightNE1" i (by decide)
    · by_cases he : jsToLower (pt.getD "") = "exchange"
      · simpa [ht, ho, he] using click_spec env "rbExchangeNE1" i (by decide)
      · exact ⟨[], by simp [ht, ho, he], by simp⟩
  · exact ⟨[], by simp [ht], by simp⟩

theorem comments_spec (env : PageEnv) (i : Nat) (c : Option String) :
    ∃ acts, commentsActions env i c = Except.ok acts ∧
      ∀ a ∈ acts, itemActionOk i a := by
  unfold commentsActions
  by_cases ht : jsTruthy c = true
  · simpa [ht] using fillRepeater_spec env "txtNEComments1" i c false (by decide)
  · exact ⟨[], by simp [ht], by simp⟩

theorem itemActions_spec (env : PageEnv) (i : Nat) (item : QuoteItem) :
    ∃ acts, itemActions env i item = Except.ok acts ∧
      ∀ a ∈ acts, itemActionOk i a := by
  obtain ⟨a1, e1, p1⟩ :=
    fillRepeater_spec env "txtNEQty1" i item.qty_available false (by decide)
  obtain ⟨a2, e2, p2⟩ :=
    selectDropdown_spec env "ddlNETraceability1" i item.traceability (by decide)
  obtain ⟨a3, e3, p3⟩ :=
    fillRepeater_spec env "txtNEUnitMeasure1" i item.uom false (by decide)
  obtain ⟨a4, e4, p4⟩ :=
    fillRepeater_spec env "txtNEPrice1" i item.price_usd false (by decide)
  obtain ⟨a5, e5, p5⟩ := priceType_spec env i item.price_type
  obtain ⟨a6, e6, p6⟩ :=
    fillRepeater_spec env "txtNELead1" i item.lead_time false (by decide)
  obtain ⟨a7, e7, p7⟩ :=
    fillRepeater_spec env "txtNEDate1" i (formatTagDate item.tag_date) true (by decide)
  obtain ⟨a8, e8, p8⟩ :=
    fillRepeater_spec env "txtNEMinQuantity1" i item.min_qty false (by decide)
  obtain ⟨a9, e9, p9⟩ := comments_spec env i item.comments
  refine ⟨a1 ++ a2 ++ a3 ++ a4 ++ a5 ++ a6 ++ a7 ++ a8 ++ a9, ?_, ?_⟩
  · simp [itemActions, e1, e2, e3, e4, e5, e6, e7, e8, e9]
  · intro a ha
    simp only [List.mem_append] at ha
    rcases ha with ((((((((h | h) | h) | h) | h) | h) | h) | h) | h)
    · exact p1 a h
    · exact p2 a h
    · exact p3 a h
    · exact p4 a h
    · exact p5 a h
    · exact p6 a h
    · exact p7 a h
    · exact p8 a h
    · exact p9 a h

/-- The item loop starting at row i0 writes only to repeater suffixes, and
every addressed row index i0 + k belongs to the non-excluded item at
position k ahead in the remaining list. -/
theorem fillItemsGo_spec (env : PageEnv) :
    ∀ (items : List QuoteItem) (i0 : Nat),
      ∃ acts, fillItemsGo env i0 items = Except.ok acts ∧
        ∀ a ∈ acts, actionSuffix a ∈ repeaterSuffixes ∧
          ∃ k item, items.get? k = some item ∧ item.no_quote = false ∧
            actionIndex a = some (i0 + k) := by
  intro items
  induction items with
  | nil => intro i0; exact ⟨[], rfl, by simp⟩
  | cons item rest ih =>
    intro i0
    cases hnq : item.no_quote with
    | true =>
      obtain ⟨acts, e, p⟩ := ih (i0 + 1)
      refine ⟨acts, by simp [fillItemsGo, hnq, e], ?_⟩
      intro a ha
      obtain ⟨hs, k, it, hget, hq, hidx⟩ := p a ha
      refine ⟨hs, k + 1, it, by simpa using hget, hq, ?_⟩
      rw [hidx]
      congr 1
      omega
    | false =>
      obtain ⟨as, ea, pa⟩ := itemActions_spec env i0 item
      obtain ⟨bs, eb, pb⟩ := ih (i0 + 1)
      refine ⟨as ++ bs, by simp [fillItemsGo, hnq, ea, eb], ?_⟩
      intro a ha
      rcases List.mem_append.mp ha with h | h
      · obtain ⟨hsuf, hidx⟩ := pa a h
        exact ⟨hsuf, 0, item, by simp, hnq, by simpa using hidx⟩
      · obtain ⟨hs, k, it, hget, hq, hidx⟩ := pb a h
        refine ⟨hs, k + 1, it, by simpa using hget, hq, ?_⟩
        rw [hidx]
        congr 1
        omega

theorem supplierComments_spec (env : PageEnv) (v : Option String) :
    ∃ acts, supplierCommentsActions env v = Except.ok acts ∧
      ∀ a ∈ acts, actionSuffix a ∈ singleSuffixes ∧ actionIndex a = none := by
  unfold supplierCommentsActions
  by_cases ht : jsTruthy v = true
  · rcases fillTextarea_shape env "txtComments" v with h | ⟨str, h⟩ | h
    · exact ⟨[], by simp [ht, h], by simp⟩
    · exact ⟨[Action.wroteTextarea "txtComments" str], by simp [ht, h],
        by simp [actionSuffix, actionIndex, singleSuffixes]⟩
    · exact ⟨[Action.skippedSingle "txtComments"], by simp [ht, h],
        by simp [actionSuffix, actionIndex, singleSuffixes]⟩
  · exact ⟨[], by simp [ht], by simp⟩

theorem preparedBy_spec (env : PageEnv) (v : Option String) :
    ∃ acts, preparedByActions env v = Except.ok acts ∧
      ∀ a ∈ acts, actionSuffix a ∈ singleSuffixes ∧ actionIndex a = none := by
  unfold preparedByActions
  by_cases ht : jsTruthy v = true
  · rcases fillInput_shape env "quotePreparedBy" v with h | ⟨str, h⟩ | h
    · exact ⟨[], by simp [ht, h], by simp⟩
    · exact ⟨[Action.wroteInput "quotePreparedBy" str], by simp [ht, h],
        by simp [actionSuffix, actionIndex, singleSuffixes]⟩
    · exact ⟨[Action.skippedSingle "quotePreparedBy"], by simp [ht, h],
        by simp [actionSuffix, actionIndex, singleSuffixes]⟩
  · exact ⟨[], by simp [ht], by simp⟩

/-- fillRfqForm always resolves, every action targets a baseline repeater
suffix or one of the two single-occurrence fields, and every addressed row
index is the overall list position of a non-excluded item. -/
theorem fillRfqForm_spec (env : PageEnv) (q : QuoteDetails) :
    ∃ acts, fillRfqForm env q = Except.ok acts ∧
      ∀ a ∈ acts, actionSuffix a ∈ repeaterSuffixes ++ singleSuffixes ∧
        ∀ j, actionIndex a = some j →
          ∃ item, q.items.get? j = some item ∧ item.no_quote = false := by
  obtain ⟨ia, ei, pi⟩ := fillItemsGo_spec env q.items 0
  obtain ⟨sa, es, ps⟩ := supplierComments_spec env q.supplier_comments
  obtain ⟨pa, ep, pp⟩ := preparedBy_spec env q.quote_prepared_by
  refine ⟨ia ++ (sa ++ pa), by simp [fillRfqForm, ei, es, ep], ?_⟩
  intro a ha
  rcases List.mem_append.mp ha with h | h
  · obtain ⟨hs, k, it, hget, hq, hidx⟩ := pi a h
    refine ⟨List.mem_append_left _ hs, ?_⟩
    intro j hj
    rw [hidx] at hj
    injection hj with hj'
    refine ⟨it, ?_, hq⟩
    rw [← hj']
    simpa using hget
  · rcases List.mem_append.mp h with h2 | h2
    · obtain ⟨hs, hidx⟩ := ps a h2
      refine ⟨List.mem_append_right _ hs, ?_⟩
      intro j hj
      rw [hidx] at hj
      cases hj
    · obtain ⟨hs, hidx⟩ := pp a h2
      refine ⟨List.mem_append_right _ hs, ?_⟩
      intro j hj
      rw [hidx] at hj
      cases hj

/-- Claim C7: every individual field-write during the fill stage is
independently fault-tolerant: for every page environment (including ones
whose waits or evaluations time out or reject) and every submission
(any price-type and date attribute values), fillRfqForm resolves rather
than aborting, and each write helper yields its write, nothing, or a
logged skip, never an error. -/
theorem claim_C7 :
    (∀ (env : PageEnv) (q : QuoteDetails), (fillRfqForm env q).isOk = true)
    ∧ (∀ (env : PageEnv) (s : String) (i : Nat) (v : Option String) (ro : Bool),
        fillRepeaterFieldBySuffix env s i v ro = Except.ok []
        ∨ (∃ str, fillRepeaterFieldBySuffix env s i v ro =
            Except.ok [Action.wroteRepeater s i str ro])
        ∨ fillRepeaterFieldBySuffix env s i v ro =
            Except.ok [Action.skippedField s i])
    ∧ (∀ (env : PageEnv) (s : String) (i : Nat) (v : Option String),
        selectDropdownBySuffix env s i v = Except.ok []
        ∨ (∃ str, selectDropdownBySuffix env s i v =
            Except.ok [Action.selectedDropdown s i str])
        ∨ selectDropdownBySuffix env s i v = Except.ok [Action.skippedField s i])
    ∧ (∀ (env : PageEnv) (s : String) (i : Nat),
        clickElementBySuffix env s i = Except.ok [Action.clicked s i]
        ∨ clickElementBySuffix env s i = Except.ok [Action.skippedField s i]) := by
  refine ⟨?_, fillRepeater_shape, selectDropdown_shape, click_shape⟩
  intro env q
  obtain ⟨acts, e, _⟩ := fillRfqForm_spec env q
  rw [e]
  rfl

/-- Claim C1, counterexample: two items, the first with explicit category
code SV, the second with explicit code NE. The claim predicts the SV item
is written to an SV suffix set and the NE item, being the first item of
the NE category, to row index 0. The code instead writes both items to the
baseline txtNEQty1 suffix at their overall list positions: the SV item at
row 0 and the NE item at row 1, and no write at row 0 carries the NE
item's value. -/
theorem claim_C1_counterexample :
    fillRfqForm allOkPageEnv
      { items := [{ qty_available := some "5", conditionCode := some "SV" },
                  { qty_available := some "7", conditionCode := some "NE" }] } =
      Except.ok [Action.wroteRepeater "txtNEQty1" 0 "5" false,
                 Action.wroteRepeater "txtNEQty1" 1 "7" false]
    ∧ Action.wroteRepeater "txtNEQty1" 0 "7" false ∉
        [Action.wroteRepeater "txtNEQty1" 0 "5" false,
         Action.wroteRepeater "txtNEQty1" 1 "7" false] := by
  constructor
  · rfl
  · decide

/-- Claim C1, amended: every action of fillRfqForm targets a baseline (NE)
repeater suffix or one of the two single-occurrence fields — an item's
category code never selects a different suffix set — and every addressed
repeated-row index equals the overall zero-based position in the items
list of a non-excluded item (per-category counting does not occur;
excluded items still consume an index but receive no writes). -/
theorem claim_C1_amended (env : PageEnv) (q : QuoteDetails) (acts : List Action)
    (h : fillRfqForm env q = Except.ok acts) :
    ∀ a ∈ acts, actionSuffix a ∈ repeaterSuffixes ++ singleSuffixes ∧
      ∀ j, actionIndex a = some j →
        ∃ item, q.items.get? j = some item ∧ item.no_quote = false := by
  obtain ⟨acts2, e, p⟩ := fillRfqForm_spec env q
  rw [h] at e
  injection e with he
  subst he
  exact p

/-- Claim C1 witness: the amended statement applied to the single-item SV
submission whose only write lands on the baseline suffix at row 0. -/
theorem claim_C1_witness :
    actionSuffix (Action.wroteRepeater "txtNEQty1" 0 "5" false) ∈
      repeaterSuffixes ++ singleSuffixes :=
  (claim_C1_amended allOkPageEnv
    { items := [{ qty_available := some "5", conditionCode := some "SV" }] }
    [Action.wroteRepeater "txtNEQty1" 0 "5" false] rfl
    (Action.wroteRepeater "txtNEQty1" 0 "5" false) (by decide)).1

theorem inv_erase (s : IdemStore) (k : String)
    (hinv : storeResultErrorInv s) : storeResultErrorInv (eraseStore s k) := by
  intro k' r' hr'
  rw [lookupStore_erase] at hr'
  by_cases h : k' = k
  · rw [if_pos h] at hr'
    cases hr'
  · rw [if_neg h] at hr'
    exact hinv k' r' hr'

theorem inv_set (s : IdemStore) (k : String) (r : IdemRecord)
    (hinv : storeResultErrorInv s)
    (hr : (r.result ≠ none → r.status = IdemStatus.completed) ∧
          (r.error ≠ none → r.status = IdemStatus.failed)) :
    storeResultErrorInv (setStore s k r) := by
  intro k' r' hr'
  rw [lookupStore_set] at hr'
  by_cases h : k' = k
  · rw [if_pos h] at hr'
    injection hr' with he
    subst he
    exact hr
  · rw [if_neg h] at hr'
    exact hinv k' r' hr'

/-- startProcessing leaves the store unchanged, or installs a fresh
processing record, possibly after pruning the key's expired record. -/
theorem startProcessing_snd (s : IdemStore) (k : String) (now : Nat) :
    (startProcessing s k now).2 = s ∨
    (startProcessing s k now).2 =
      setStore s k ⟨IdemStatus.processing, now, none, none⟩ ∨
    (startProcessing s k now).2 =
      setStore (eraseStore s k) k ⟨IdemStatus.processing, now, none, none⟩ := by
  cases hl : lookupStore s k with
  | none => simp [startProcessing, checkIdempotency, hl]
  | some r =>
    by_cases hexp : now - r.createdAt > idempotencyTtlMs
    · simp [startProcessing, checkIdempotency, hl, hexp]
    · simp [startProcessing, checkIdempotency, hl, hexp]

/-- One guarded idempotency call preserves the record-shape invariant. -/
theorem applyOp_preserves (s : IdemStore) (op : IdemOp)
    (hinv : storeResultErrorInv s) (hg : markGuardOk s op = true) :
    storeResultErrorInv (applyOp s op) := by
  cases op with
  | startOp k now =>
    show storeResultErrorInv (startProcessing s k now).2
    have hfresh : ((⟨IdemStatus.processing, now, none, none⟩ : IdemRecord).result ≠ none →
          (⟨IdemStatus.processing, now, none, none⟩ : IdemRecord).status =
            IdemStatus.completed) ∧
        ((⟨IdemStatus.processing, now, none, none⟩ : IdemRecord).error ≠ none →
          (⟨IdemStatus.processing, now, none, none⟩ : IdemRecord).status =
            IdemStatus.failed) := by
      constructor <;> intro hx <;> simp at hx
    rcases startProcessing_snd s k now with h | h | h <;> rw [h]
    · exact hinv
    · exact inv_set s k _ hinv hfresh
    · exact inv_set _ k _ (inv_erase s k hinv) hfresh
  | completeOp k res =>
    show storeResultErrorInv (markCompleted s k res)
    cases hl : lookupStore s k with
    | none => simpa [markCompleted, hl] using hinv
    | some r =>
      have hst : r.status = IdemStatus.processing := by
        have := hg
        simp [markGuardOk, hl] at this
        exact this
      have herr : r.error = none := by
        by_contra hne
        have hfail := (hinv k r hl).2 hne
        rw [hst] at hfail
        cases hfail
      have hbody : storeResultErrorInv
          (setStore s k { r with status := IdemStatus.completed, result := some res }) := by
        refine inv_set s k _ hinv ⟨fun _ => rfl, fun hx => ?_⟩
        exact absurd herr hx
      simpa [markCompleted, hl] using hbody
  | failOp k err =>
    show storeResultErrorInv (markFailed s k err)
    cases hl : lookupStore s k with
    | none => simpa [markFailed, hl] using hinv
    | some r =>
      have hst : r.status = IdemStatus.processing := by
        have := hg
        simp [markGuardOk, hl] at this
        exact this
      have hres : r.result = none := by
        by_contra hne
        have hcomp := (hinv k r hl).1 hne
        rw [hst] at hcomp
        cases hcomp
      have hbody : storeResultErrorInv
          (setStore s k { r with status := IdemStatus.failed, error := some err }) := by
        refine inv_set s k _ hinv ⟨fun hx => ?_, fun _ => rfl⟩
        exact absurd hres hx
      simpa [markFailed, hl] using hbody
  | removeOp k =>
    exact inv_erase s k hinv

/-- A guarded run preserves the record-shape invariant. -/
theorem okOps_preserves :
    ∀ (ops : List IdemOp) (s : IdemStore), storeResultErrorInv s →
      okOps s ops = true → storeResultErrorInv (applyOps s ops) := by
  intro ops
  induction ops with
  | nil => intro s h _; exact h
  | cons op rest ih =>
    intro s h hok
    simp only [okOps, Bool.and_eq_true] at hok
    exact ih (applyOp s op) (applyOp_preserves s op h hok.1) hok.2

/-- Claim C9, counterexample: the call sequence startProcessing, then
markCompleted, then markFailed on one key leaves a failed record that
still carries the cached result payload, so a non-null result payload does
not imply completed status across arbitrary call sequences. -/
theorem claim_C9_counterexample :
    ¬ storeResultErrorInv (applyOps []
      [IdemOp.startOp "k" 0, IdemOp.completeOp "k" "res", IdemOp.failOp "k" "boom"]) := by
  intro h
  have h2 := h "k" ⟨IdemStatus.failed, 0, some "res", some "boom"⟩ rfl
  have h3 := h2.1 (by simp)
  cases h3

/-- Claim C9, amended: in every store state reachable from the empty store
by a sequence of startProcessing, markCompleted, markFailed and removeKey
calls in which each terminal mark is applied only while the key's record,
if any, is still processing (one terminal transition per record lifetime),
a record's cached result payload is non-null only when its status is
completed and its error text is non-null only when its status is failed. -/
theorem claim_C9_amended (ops : List IdemOp) (hok : okOps [] ops = true) :
    storeResultErrorInv (applyOps [] ops) := by
  refine okOps_preserves ops [] ?_ hok
  intro k r hr
  cases hr

/-- Claim C9 witness: the amended invariant holds after a guarded
start-then-complete run. -/
theorem claim_C9_witness :
    storeResultErrorInv (applyOps []
      [IdemOp.startOp "k" 0, IdemOp.completeOp "k" "res"]) :=
  claim_C9_amended [IdemOp.startOp "k" 0, IdemOp.completeOp "k" "res"] (by decide)

end PuppeteerService
